import Mathlib

/-!
# Verification of the Reddit analyzer bot core (`bot.py`)

Shallow embedding of the core of `bot.py`: the message splitter
(`TelegramBot._send_long_message`), the per-source fetch/filter/dedup policy
(`RedditAnalyzer.fetch_posts`), the batch summarizer
(`RedditAnalyzer.analyze_posts_batch`), the analysis orchestrator
(`TelegramBot._perform_analysis`) and the subreddit configuration operations
(`Config.add_subreddit` / `remove_subreddit` / `set_subreddits`).

Python strings are modelled as `List Char` where character-level slicing
matters (the splitter), and as `String` elsewhere.  External collaborators
(Reddit provider, OpenAI service, Telegram delivery, `datetime.strftime`)
are modelled as parameters / oracle values; everything else is translated
directly from the source.
-/

/-- Model of the call to rfind searching a line break in `_send_long_message`
(bot.py line 448):
index of the last `'\n'` in the list, `none` when absent
(Python returns `-1` for absent; the `none` case maps to the `== -1` branch). -/
def rfindNewline : List Char → Option Nat
  | [] => none
  | c :: cs =>
    match rfindNewline cs with
    | some i => some (i + 1)
    | none => if c = '\n' then some 0 else none

/-- The splitting loop of `TelegramBot._send_long_message` (bot.py lines 445-457),
fuel-indexed: while text is non-empty, if it exceeds `maxLength` cut at the last
line break inside the first `maxLength` characters (dropping that newline),
otherwise cut at exactly `maxLength`; a final short remainder is kept whole.
`fuel ≥ text.length` makes the fuel irrelevant whenever `0 < maxLength`. -/
def splitAux : Nat → List Char → Nat → List (List Char)
  | 0, _, _ => []
  | fuel + 1, text, maxLength =>
    if text.length = 0 then []
    else if text.length > maxLength then
      match rfindNewline (text.take maxLength) with
      | some i => text.take i :: splitAux fuel (text.drop (i + 1)) maxLength
      | none => text.take maxLength :: splitAux fuel (text.drop maxLength) maxLength
    else [text]

/-- The list `parts` computed by `TelegramBot._send_long_message` for a text of
any length (a text of length `≤ maxLength` is sent whole, i.e. as one part). -/
def splitMessage (text : List Char) (maxLength : Nat) : List (List Char) :=
  splitAux text.length text maxLength

/-- Interleave parts with separators: `interleave [p1, p2, p3] [s1, s2]`
is `p1 ++ s1 ++ p2 ++ s2 ++ p3`.  Used to state what the splitter drops. -/
def interleave : List (List Char) → List (List Char) → List Char
  | [], _ => []
  | p :: ps, [] => p ++ interleave ps []
  | p :: ps, s :: ss => p ++ s ++ interleave ps ss

/-- The `"<b>...continued</b>\n\n"` marker prefixed to every part after the
first (bot.py line 461). -/
def continuedMarker : List Char := "<b>...continued</b>\n\n".toList

/-- The Telegram message-length limit used by `_send_long_message`
(bot.py line 439). -/
def telegramMaxLength : Nat := 4096

/-- The strings handed to `bot.send_message` by
`TelegramBot._send_long_message` (bot.py lines 437-464): a short text is
sent whole; a long text is split and every part after the first receives the
continuation marker. -/
def sentStrings (text : List Char) : List (List Char) :=
  if text.length ≤ telegramMaxLength then [text]
  else
    (splitMessage text telegramMaxLength).enum.map
      (fun ip => if ip.1 = 0 then ip.2 else continuedMarker ++ ip.2)

/-- String-typed version of `sentStrings`, used by the orchestrator model. -/
def sendLongMessage (text : String) : List String :=
  (sentStrings text.toList).map (fun l => String.mk l)

/-- Python string slicing `s[:n]`: the first `n` characters.  (Python slices
by character; `String.mk (toList.take n)` is that operation.) -/
def pySlice (s : String) (n : Nat) : String := String.mk (s.toList.take n)

/-- Python `str.strip()` with no argument: remove leading and trailing
whitespace. -/
def pyStrip (s : String) : String :=
  String.mk
    (((s.toList.dropWhile Char.isWhitespace).reverse.dropWhile
        Char.isWhitespace).reverse)

/-- A Reddit comment as stored by `fetch_posts` into a post dict
(bot.py lines 178-182). -/
structure Comment where
  author : String
  body : String
  score : Int
deriving DecidableEq

/-- A raw comment as returned by the provider; `author` is `none` when the
account is deleted (Python: `comment.author` is falsy). -/
structure RawComment where
  author : Option String
  body : String
  score : Int
deriving DecidableEq

/-- A raw submission as returned by the provider, with its flattened comment
list (what `submission.comments.list()` yields after `replace_more`). -/
structure Submission where
  id : String
  title : String
  selftext : String
  url : String
  score : Int
  num_comments : Nat
  created_utc : Int
  permalink : String
  comments : List RawComment
deriving DecidableEq

/-- The `post_data` dict built by `fetch_posts` (bot.py lines 185-190). -/
structure Post where
  id : String
  title : String
  selftext : String
  url : String
  score : Int
  num_comments : Nat
  created_utc : Int
  subreddit : String
  permalink : String
  comments : List Comment
deriving DecidableEq

/-- Comment processing in `fetch_posts` (bot.py lines 176-182): walk the first
15 comments, keep those whose body is longer than 10 characters and is not the
"[deleted]" sentinel, render a missing author as "Unknown" and truncate the
body to 800 characters. -/
def processComments (cs : List RawComment) : List Comment :=
  ((cs.take 15).filter
      (fun c => decide (c.body.length > 10) && decide (c.body ≠ "[deleted]"))).map
    (fun c => { author := c.author.getD "Unknown", body := pySlice c.body 800,
                score := c.score })

/-- The `post_data` record for an accepted submission (bot.py lines 185-190);
the body is truncated to 1000 characters. -/
def mkPost (subredditName : String) (sub : Submission) (comments : List Comment) :
    Post :=
  { id := sub.id, title := sub.title, selftext := pySlice sub.selftext 1000,
    url := sub.url, score := sub.score, num_comments := sub.num_comments,
    created_utc := sub.created_utc, subreddit := subredditName,
    permalink := sub.permalink, comments := comments }

/-- Observable actions on the dedup ledger during a `fetch_posts` call:
`accept` is `self.processed_posts.add(id)` (bot.py line 193), `persist` is
`self._save_processed_posts()` writing the current in-memory set
(bot.py lines 151-159 and 195-196). -/
inductive LedgerEvent where
  | accept (id : String)
  | persist (snapshot : Finset String)
deriving DecidableEq

/-- Whether a ledger event is a persist. -/
def LedgerEvent.isPersist : LedgerEvent → Bool
  | LedgerEvent.accept _ => false
  | LedgerEvent.persist _ => true

/-- State threaded through the `fetch_posts` loop: accepted posts in order,
the in-memory ledger `self.processed_posts`, and the trace of ledger events. -/
structure FetchState where
  posts : List Post
  processed : Finset String
  events : List LedgerEvent
deriving DecidableEq

/-- Loop body of `fetch_posts` (bot.py lines 167-193): skip submissions whose
id is already in the ledger, skip those older than 24 hours against retrieval
time `now`, process comments, and accept the submission when it has score
above 5 or more than 2 retained comments — recording the acceptance in the
ledger immediately. -/
def fetchStep (now : Int) (subredditName : String) (st : FetchState)
    (sub : Submission) : FetchState :=
  if sub.id ∈ st.processed then st
  else if now - sub.created_utc > 86400 then st
  else
    let comments := processComments sub.comments
    if sub.score > 5 ∨ comments.length > 2 then
      { posts := st.posts ++ [mkPost subredditName sub comments],
        processed := insert sub.id st.processed,
        events := st.events ++ [LedgerEvent.accept sub.id] }
    else st

/-- Model of `RedditAnalyzer.fetch_posts` (bot.py lines 161-198): fold the loop
body over the submissions from the provider, then persist the ledger once —
only when new
posts were found. -/
def fetch_posts (now : Int) (processed0 : Finset String) (subredditName : String)
    (subs : List Submission) : FetchState :=
  let st := subs.foldl (fetchStep now subredditName) ⟨[], processed0, []⟩
  if st.posts.isEmpty then st
  else { st with events := st.events ++ [LedgerEvent.persist st.processed] }

/-- Invariant maintained by the `fetch_posts` loop over the initial ledger
`P0`: every accepted post is already in the in-memory ledger and has a
recorded accept event, was not in the initial ledger, is at most 24 hours
old at retrieval time, and meets the engagement threshold; the ledger only
grows; no persist happens inside the loop. -/
def FetchInv (now : Int) (P0 : Finset String) (st : FetchState) : Prop :=
  (∀ p ∈ st.posts,
    p.id ∈ st.processed ∧ LedgerEvent.accept p.id ∈ st.events ∧
    p.id ∉ P0 ∧ now - p.created_utc ≤ 86400 ∧
    (p.score > 5 ∨ p.comments.length > 2)) ∧
  P0 ⊆ st.processed ∧
  st.events.filter LedgerEvent.isPersist = []

/-- Outcome of one chat-completions call, as observed by
`analyze_posts_batch` (bot.py lines 232-258): a successful response body, an
`openai.APIError`, or any other exception. -/
inductive AIResult where
  | success (content : String)
  | apiError (msg : String)
  | otherError

/-- The comparison realised by Python
`sorted(post["comments"], key=lambda x: x["score"], reverse=True)`:
descending score. -/
def scoreGE (a b : Comment) : Bool := decide (b.score ≤ a.score)

/-- The sorted comment list of bot.py line 227.  The sorted builtin of Python
is stable;
`List.mergeSort` is the stable sort on lists, so it is the faithful model. -/
def sortedComments (cs : List Comment) : List Comment := cs.mergeSort scoreGE

/-- Slice of the sorted comments that actually enters the prompt
(bot.py line 228). -/
def selectedComments (cs : List Comment) : List Comment := (sortedComments cs).take 8

/-- One comment line of the prompt (bot.py line 229). -/
def commentEntry (i : Nat) (c : Comment) : String :=
  "\n" ++ toString i ++ ". [↑" ++ toString c.score ++ "] u/" ++ c.author ++ ": " ++
    c.body ++ "\n"

/-- The TOP COMMENTS block of one post (bot.py lines 227-229). -/
def topCommentsText (cs : List Comment) : String :=
  String.join ((selectedComments cs).enum.map (fun ic => commentEntry (ic.1 + 1) ic.2))

/-- The `post_text` block for one post (bot.py lines 214-229).  `fmtTime`
abstracts `datetime.fromtimestamp(...).strftime(...)`, an external library
call. -/
def postText (fmtTime : Int → String) (idx : Nat) (p : Post) : String :=
  "\nPOST #" ++ toString idx ++ ":\nTITLE: " ++ p.title ++
  "\nSUBREDDIT: r/" ++ p.subreddit ++
  "\nSCORE: " ++ toString p.score ++ " upvotes | " ++ toString p.num_comments ++
  " comments\nTIME: " ++ fmtTime p.created_utc ++
  "\nURL: https://www.reddit.com" ++ p.permalink ++
  "\n\nPOST CONTENT:\n" ++
  (if p.selftext = "" then "No text content (link post)" else p.selftext) ++
  "\n\nTOP COMMENTS:\n" ++ topCommentsText p.comments

/-- Model of the combined_content accumulator (bot.py lines 212-230). -/
def combinedContent (fmtTime : Int → String) (posts : List Post) : String :=
  String.join (posts.enum.map (fun ip => postText fmtTime (ip.1 + 1) ip.2 ++ "\n\n"))

/-- The error string returned when the AI API raises (bot.py line 255). -/
def errorAnalysisMessage (msg : String) : String :=
  "Error: Could not analyze posts due to an AI API error: " ++ msg

/-- Model of `RedditAnalyzer.analyze_posts_batch` (bot.py lines 207-258):
empty input
returns immediately with no result; otherwise the service is called on the
built prompt; its response is stripped and an empty response becomes no
result; both exception handlers return an error STRING through the same
`Optional[str]` channel. -/
def analyze_posts_batch (ai : String → AIResult) (fmtTime : Int → String)
    (posts : List Post) : Option String :=
  if posts.isEmpty then none
  else
    match ai ("CONTENT TO ANALYZE:\n" ++ combinedContent fmtTime posts) with
    | AIResult.success content =>
      let analysis := pyStrip content
      if analysis = "" then none else some analysis
    | AIResult.apiError msg => some (errorAnalysisMessage msg)
    | AIResult.otherError => some "Error: An unexpected error occurred during analysis."

/-- Result of a `fetch_posts` call as seen by the orchestrator: a provider
failure is caught inside `fetch_posts` (bot.py lines 200-205) and surfaces as
an empty list. -/
inductive FetchResult where
  | providerError
  | ok (posts : List Post)

/-- What `fetch_posts` actually returns to its caller for each outcome. -/
def FetchResult.returned : FetchResult → List Post
  | FetchResult.providerError => []
  | FetchResult.ok posts => posts

/-- External collaborators of one `_perform_analysis` run: the per-subreddit
fetch outcome, the per-subreddit AI service (a function of the user content),
and the timestamp formatter. -/
structure RunEnv where
  fetch : String → FetchResult
  ai : String → String → AIResult
  fmtTime : Int → String

/-- Observable state of one `_perform_analysis` run: `total_new_posts` and
`summary_lines` (bot.py lines 470-471) and the ordered list of strings handed
to the delivery channel. -/
structure RunState where
  total_new_posts : Nat
  summary_lines : List String
  sent : List String
deriving DecidableEq

/-- The per-source report line appended by `_perform_analysis`
(bot.py lines 477 and 480). -/
def summaryLineFor (subreddit : String) (posts : List Post) : String :=
  if posts.isEmpty then "• r/" ++ subreddit ++ ": No new posts found."
  else "• r/" ++ subreddit ++ ": Found " ++ toString posts.length ++
    " new posts, analyzing..."

/-- Loop body of `_perform_analysis` (bot.py lines 473-493): record a report
line for the source; when posts were found, announce them, run the batch
summarizer, and on a (truthy) result deliver it through the splitter and add
the batch size to the found count; on no result send an apology instead. -/
def processSource (env : RunEnv) (st : RunState) (subreddit : String) : RunState :=
  let posts := (env.fetch subreddit).returned
  if posts.isEmpty then
    { st with summary_lines := st.summary_lines ++ [summaryLineFor subreddit posts] }
  else
    let st1 : RunState :=
      { st with
        summary_lines := st.summary_lines ++ [summaryLineFor subreddit posts],
        sent := st.sent ++
          ["Found " ++ toString posts.length ++ " new post(s) in r/" ++ subreddit ++
            ". Analyzing now..."] }
    match analyze_posts_batch (env.ai subreddit) env.fmtTime posts with
    | some analysis =>
      { st1 with sent := st1.sent ++ sendLongMessage analysis,
                 total_new_posts := st1.total_new_posts + posts.length }
    | none =>
      { st1 with sent := st1.sent ++
          ["Could not generate a summary for r/" ++ subreddit ++ "."] }

/-- Model of `TelegramBot._perform_analysis` (bot.py lines 466-500): announce
the run,
fold the loop body over the configured subreddits, then send one final
aggregate report built from the per-source lines. -/
def perform_analysis (env : RunEnv) (subreddits : List String) : RunState :=
  let st0 : RunState :=
    { total_new_posts := 0, summary_lines := [],
      sent := ["🔍 <b>Starting Analysis</b> for " ++ toString subreddits.length ++
        " subreddits..."] }
  let st := subreddits.foldl (processSource env) st0
  let final := "✅ <b>Analysis Complete!</b>\n\n" ++
    String.intercalate "\n" st.summary_lines ++
    (if st.total_new_posts = 0
     then "\n\n📭 No new interesting posts found across all subreddits." else "")
  { st with sent := st.sent ++ [final] }

/-- Model of `Config.add_subreddit` (bot.py lines 101-105); the Bool records
whether
`_save_subreddits` ran in this mutation. -/
def add_subreddit (subreddits : List String) (s : String) : List String × Bool :=
  if s ∈ subreddits then (subreddits, false) else (subreddits ++ [s], true)

/-- Model of `Config.remove_subreddit` (bot.py lines 107-111). -/
def remove_subreddit (subreddits : List String) (s : String) : List String × Bool :=
  if s ∈ subreddits then (subreddits.erase s, true) else (subreddits, false)

/-- Model of `Config.set_subreddits` (bot.py lines 113-116): replaces the list
verbatim and always saves. -/
def set_subreddits (subreddits : List String) (new : List String) :
    List String × Bool :=
  (new, true)

/-- Submission with identifier "abc" for the dedup scenario of the spec. -/
def subAbc : Submission :=
  { id := "abc", title := "A", selftext := "", url := "", score := 10,
    num_comments := 0, created_utc := 999500, permalink := "/a", comments := [] }

/-- Fresh, recent, high-score submission with identifier "def" for the dedup
scenario of the spec. -/
def subDef : Submission :=
  { id := "def", title := "D", selftext := "", url := "", score := 10,
    num_comments := 0, created_utc := 999500, permalink := "/d", comments := [] }

/-- Fresh submission with identifier "ghi", used for a later fetch call. -/
def subGhi : Submission :=
  { id := "ghi", title := "G", selftext := "", url := "", score := 10,
    num_comments := 0, created_utc := 999500, permalink := "/g", comments := [] }

/-- A concrete post found in subreddit "b", used in run counterexamples. -/
def samplePost : Post :=
  { id := "p1", title := "T", selftext := "", url := "", score := 10,
    num_comments := 0, created_utc := 0, subreddit := "b", permalink := "/x",
    comments := [] }

/-- Run environment where only source "b" has one new post and the AI service
raises an APIError "boom" there. -/
def envC3fail : RunEnv :=
  { fetch := fun s => if s = "b" then FetchResult.ok [samplePost] else FetchResult.ok [],
    ai := fun _ _ => AIResult.apiError "boom",
    fmtTime := fun _ => "" }

/-- Same fetch outcomes as `envC3fail` but the AI call succeeds. -/
def envC3ok : RunEnv :=
  { fetch := fun s => if s = "b" then FetchResult.ok [samplePost] else FetchResult.ok [],
    ai := fun _ _ => AIResult.success "All good.",
    fmtTime := fun _ => "" }

/-- Run environment with one source, one post, and an AI APIError. -/
def envC4 : RunEnv :=
  { fetch := fun _ => FetchResult.ok [samplePost],
    ai := fun _ _ => AIResult.apiError "boom",
    fmtTime := fun _ => "" }

/-- An index returned by `rfindNewline` is in range and points at a `'\n'`. -/
theorem rfindNewline_spec :
    ∀ (l : List Char) (i : Nat), rfindNewline l = some i →
      i < l.length ∧ l[i]? = some '\n' := by
  intro l
  induction l with
  | nil => intro i h; simp [rfindNewline] at h
  | cons c cs ih =>
    intro i h
    simp only [rfindNewline] at h
    cases hr : rfindNewline cs with
    | some j =>
      rw [hr] at h
      cases h
      have := ih j hr
      constructor
      · simpa using Nat.succ_lt_succ this.1
      · simpa using this.2
    | none =>
      rw [hr] at h
      by_cases hc : c = '\n'
      · simp [hc] at h
        cases h
        simp [hc]
      · simp [hc] at h

/-- The splitting loop of `_send_long_message`, specified: with enough fuel and
a positive bound, every produced part has length at most `maxLength`, and the
original text is recovered by re-inserting, at each cut, the separator the loop
dropped there — a single newline for a line-break cut, nothing for a cut at the
exact bound. -/
theorem splitAux_spec :
    ∀ (fuel : Nat) (text : List Char) (maxLength : Nat),
      0 < maxLength → text.length ≤ fuel →
      (∀ part ∈ splitAux fuel text maxLength, part.length ≤ maxLength) ∧
      ∃ seps : List (List Char),
        (∀ sp ∈ seps, sp = ['\n'] ∨ sp = []) ∧
        interleave (splitAux fuel text maxLength) seps = text := by
  intro fuel
  induction fuel with
  | zero =>
    intro text maxLength _ hfuel
    have : text = [] := List.eq_nil_of_length_eq_zero (Nat.le_zero.mp hfuel)
    subst this
    exact ⟨by simp [splitAux], [], by simp, by simp [splitAux, interleave]⟩
  | succ n ih =>
    intro text maxLength hpos hfuel
    by_cases hz : text.length = 0
    · have : text = [] := List.eq_nil_of_length_eq_zero hz
      subst this
      exact ⟨by simp [splitAux], [], by simp, by simp [splitAux, interleave]⟩
    · by_cases hlong : text.length > maxLength
      · cases hr : rfindNewline (text.take maxLength) with
        | some i =>
          have hspec := rfindNewline_spec _ _ hr
          have hiL : i < maxLength := by
            have := hspec.1
            simp [List.length_take] at this
            omega
          have hitext : i < text.length := by omega
          have hget : text[i]? = some '\n' := by
            have := hspec.2
            rwa [List.getElem?_take_of_lt hiL] at this
          have hchar : text[i] = '\n' := by
            rw [List.getElem?_eq_getElem hitext] at hget
            exact Option.some.inj hget
          have hdecomp : text = text.take i ++ '\n' :: text.drop (i + 1) := by
            conv_lhs => rw [← List.take_append_drop i text]
            rw [List.drop_eq_getElem_cons hitext, hchar]
          have hdroplen : (text.drop (i + 1)).length ≤ n := by
            simp [List.length_drop]
            omega
          have hIH := ih (text.drop (i + 1)) maxLength hpos hdroplen
          have hunfold : splitAux (n + 1) text maxLength =
              text.take i :: splitAux n (text.drop (i + 1)) maxLength := by
            simp only [splitAux, if_neg hz, if_pos hlong, hr]
          constructor
          · intro part hpart
            rw [hunfold] at hpart
            rcases List.mem_cons.mp hpart with hp | hp
            · subst hp
              have : (text.take i).length ≤ i := by simp [List.length_take]
              omega
            · exact hIH.1 part hp
          · obtain ⟨seps, hseps, hinter⟩ := hIH.2
            refine ⟨['\n'] :: seps, ?_, ?_⟩
            · intro sp hsp
              rcases List.mem_cons.mp hsp with h | h
              · exact Or.inl h
              · exact hseps sp h
            · rw [hunfold]
              show text.take i ++ ['\n'] ++ _ = text
              rw [hinter]
              conv_rhs => rw [hdecomp]
              simp
        | none =>
          have hdroplen : (text.drop maxLength).length ≤ n := by
            simp [List.length_drop]
            omega
          have hIH := ih (text.drop maxLength) maxLength hpos hdroplen
          have hunfold : splitAux (n + 1) text maxLength =
              text.take maxLength :: splitAux n (text.drop maxLength) maxLength := by
            simp only [splitAux, if_neg hz, if_pos hlong, hr]
          constructor
          · intro part hpart
            rw [hunfold] at hpart
            rcases List.mem_cons.mp hpart with hp | hp
            · subst hp
              simp [List.length_take]
            · exact hIH.1 part hp
          · obtain ⟨seps, hseps, hinter⟩ := hIH.2
            refine ⟨[] :: seps, ?_, ?_⟩
            · intro sp hsp
              rcases List.mem_cons.mp hsp with h | h
              · exact Or.inr h
              · exact hseps sp h
            · rw [hunfold]
              show text.take maxLength ++ [] ++ _ = text
              rw [hinter]
              simp
      · have hshort : ¬ text.length > maxLength := hlong
        have hunfold : splitAux (n + 1) text maxLength = [text] := by
          simp only [splitAux, if_neg hz, if_neg hshort]
        constructor
        · intro part hpart
          rw [hunfold] at hpart
          simp at hpart
          subst hpart
          omega
        · refine ⟨[], by simp, ?_⟩
          rw [hunfold]
          simp [interleave]

/-- Unfolding step of the splitter for a long text with no newline in the
window. -/
theorem splitAux_step_nonewline (fuel : Nat) (text : List Char) (maxLength : Nat)
    (h0 : ¬ text.length = 0) (h1 : text.length > maxLength)
    (h2 : rfindNewline (text.take maxLength) = none) :
    splitAux (fuel + 1) text maxLength =
      text.take maxLength :: splitAux fuel (text.drop maxLength) maxLength := by
  simp only [splitAux, if_neg h0, if_pos h1, h2]

/-- Unfolding step of the splitter for a text already within the bound. -/
theorem splitAux_step_short (fuel : Nat) (text : List Char) (maxLength : Nat)
    (h0 : ¬ text.length = 0) (h1 : ¬ text.length > maxLength) :
    splitAux (fuel + 1) text maxLength = [text] := by
  simp only [splitAux, if_neg h0, if_neg h1]

/-- A run of dots contains no newline. -/
theorem rfindNewline_replicate_dot (n : Nat) :
    rfindNewline (List.replicate n '.') = none := by
  induction n with
  | zero => rfl
  | succ k ih => simp [List.replicate_succ, rfindNewline, ih]

/-- Splitting 8192 dots at 4096 yields two parts of exactly 4096 dots. -/
theorem splitMessage_dots :
    splitMessage (List.replicate 8192 '.') 4096 =
      [List.replicate 4096 '.', List.replicate 4096 '.'] := by
  have htake : (List.replicate 8192 '.').take 4096 = List.replicate 4096 '.' := by
    rw [List.take_replicate]; norm_num
  have hdrop : (List.replicate 8192 '.').drop 4096 = List.replicate 4096 '.' := by
    rw [List.drop_replicate]
  have hlen8 : ¬ (List.replicate 8192 '.').length = 0 := by
    rw [List.length_replicate]; norm_num
  have hgt8 : (List.replicate 8192 '.').length > 4096 := by
    rw [List.length_replicate]; norm_num
  have hlen4 : ¬ (List.replicate 4096 '.').length = 0 := by
    rw [List.length_replicate]; norm_num
  have hgt4 : ¬ (List.replicate 4096 '.').length > 4096 := by
    rw [List.length_replicate]; norm_num
  rw [splitMessage, List.length_replicate]
  rw [show (8192 : Nat) = 8191 + 1 from rfl]
  rw [splitAux_step_nonewline 8191 _ 4096 hlen8 hgt8
      (by rw [htake]; exact rfindNewline_replicate_dot 4096), htake, hdrop]
  rw [show (8191 : Nat) = 8190 + 1 from rfl]
  rw [splitAux_step_short 8190 _ 4096 hlen4 hgt4]

/-- The strings handed to the channel for a text of 8192 dots: the second one
carries the continuation marker on top of a full-length part. -/
theorem sentStrings_dots :
    sentStrings (List.replicate 8192 '.') =
      [List.replicate 4096 '.', continuedMarker ++ List.replicate 4096 '.'] := by
  have henum : ∀ (a b : List Char), ([a, b]).enum = [(0, a), (1, b)] := by
    intro a b; rfl
  have hmap : ∀ (a b : List Char),
      List.map (fun ip => if ip.1 = 0 then ip.2 else continuedMarker ++ ip.2)
        [(0, a), (1, b)] = [a, continuedMarker ++ b] := by
    intro a b; simp
  rw [sentStrings,
    if_neg (by rw [List.length_replicate]; simp [telegramMaxLength])]
  rw [show telegramMaxLength = 4096 from rfl, splitMessage_dots, henum, hmap]

/-- C2 (code bug evaluation): for the 8192-dot input, `_send_long_message`
hands the channel a string of length 4117 — the "continued" marker added on
top of an already-4096-character part pushes past the 4096 limit. -/
theorem C2_oversized_sent_message :
    (sentStrings (List.replicate 8192 '.')).map List.length = [4096, 4117] ∧
    ∃ s ∈ sentStrings (List.replicate 8192 '.'), telegramMaxLength < s.length := by
  have hm : continuedMarker.length = 21 := by decide
  constructor
  · rw [sentStrings_dots]
    simp only [List.map, List.length_append, List.length_replicate, hm]
  · refine ⟨continuedMarker ++ List.replicate 4096 '.', ?_, ?_⟩
    · rw [sentStrings_dots]
      exact List.mem_cons_of_mem _ (List.mem_singleton_self _)
    · rw [List.length_append, List.length_replicate, hm, telegramMaxLength]
      norm_num

/-- C1 (counterexample): splitting "a\nbb" at bound 2 yields segments
["a", "bb"] whose concatenation "abb" is NOT the original text — the newline
at the cut is dropped. -/
theorem C1_counterexample_newline_lost :
    splitMessage "a\nbb".toList 2 = [['a'], ['b', 'b']] ∧
    (splitMessage "a\nbb".toList 2).flatten ≠ "a\nbb".toList := by decide

/-- C1 (amended): for every text and positive bound, every segment produced by
the splitter has length at most the bound, and the original text is recovered
by re-inserting at each cut the separator the splitter dropped there — one
newline for a cut at a line break, nothing for a cut at the exact bound. -/
theorem C1_split_bounded_and_rejoin (text : List Char) (maxLength : Nat)
    (h : 0 < maxLength) :
    (∀ part ∈ splitMessage text maxLength, part.length ≤ maxLength) ∧
    ∃ seps : List (List Char),
      (∀ sp ∈ seps, sp = ['\n'] ∨ sp = []) ∧
      interleave (splitMessage text maxLength) seps = text :=
  splitAux_spec text.length text maxLength h (Nat.le_refl _)

/-- Witness for C1 at the concrete text "a\nbb" with bound 2. -/
theorem C1_witness :
    (∀ part ∈ splitMessage "a\nbb".toList 2, part.length ≤ 2) ∧
    ∃ seps : List (List Char),
      (∀ sp ∈ seps, sp = ['\n'] ∨ sp = []) ∧
      interleave (splitMessage "a\nbb".toList 2) seps = "a\nbb".toList :=
  C1_split_bounded_and_rejoin "a\nbb".toList 2 (by decide)

/-- Each loop iteration of `_perform_analysis` appends exactly one report
line for its source, whatever the fetch and AI outcomes are. -/
theorem processSource_summary_lines (env : RunEnv) (st : RunState) (s : String) :
    (processSource env st s).summary_lines =
      st.summary_lines ++ [summaryLineFor s (env.fetch s).returned] := by
  by_cases h : (env.fetch s).returned.isEmpty
  · simp only [processSource, h, if_pos]
  · simp only [processSource, h]
    cases hA : analyze_posts_batch (env.ai s) env.fmtTime (env.fetch s).returned with
    | none => simp [hA]
    | some a => simp [hA]

/-- Folding the loop over the sources produces one report line per source,
each depending only on the fetch outcome of its own source. -/
theorem foldl_processSource_summary (env : RunEnv) :
    ∀ (subs : List String) (st : RunState),
      (subs.foldl (processSource env) st).summary_lines =
        st.summary_lines ++
          subs.map (fun s => summaryLineFor s (env.fetch s).returned) := by
  intro subs
  induction subs with
  | nil => intro st; simp
  | cons s rest ih =>
    intro st
    simp only [List.foldl_cons, List.map_cons]
    rw [ih, processSource_summary_lines]
    simp

/-- C3 (amended): every run completes and reports exactly one line per
configured source — each line determined only by the fetch outcome of that
source
alone — followed by one final completion message built from those lines.
A provider error yields, for that source, the "No new posts found." line and a
summarization error yields its "Found N new posts, analyzing..." line; the
error itself is not reflected in any report line. -/
theorem C3_report_lines_complete (env : RunEnv) (subreddits : List String) :
    (perform_analysis env subreddits).summary_lines =
      subreddits.map (fun s => summaryLineFor s (env.fetch s).returned) ∧
    (perform_analysis env subreddits).sent.getLast? =
      some ("✅ <b>Analysis Complete!</b>\n\n" ++
        String.intercalate "\n" (perform_analysis env subreddits).summary_lines ++
        (if (perform_analysis env subreddits).total_new_posts = 0
         then "\n\n📭 No new interesting posts found across all subreddits."
         else "")) := by
  constructor
  · simp only [perform_analysis]
    rw [foldl_processSource_summary]
    simp
  · simp only [perform_analysis]
    rw [List.getLast?_concat]

/-- C3 (counterexample): three sources where exactly source "b" suffers a
summarization APIError.  The report lines are character-for-character the
same as in the run where the AI call succeeds — the error appears in no
report line; the error text is delivered as if it were the analysis. -/
theorem C3_counterexample_error_not_in_report :
    (perform_analysis envC3fail ["a", "b", "c"]).summary_lines =
      (perform_analysis envC3ok ["a", "b", "c"]).summary_lines ∧
    (perform_analysis envC3fail ["a", "b", "c"]).summary_lines =
      ["• r/a: No new posts found.",
       "• r/b: Found 1 new posts, analyzing...",
       "• r/c: No new posts found."] ∧
    "Error: Could not analyze posts due to an AI API error: boom" ∈
      (perform_analysis envC3fail ["a", "b", "c"]).sent := by decide

/-- C4 (amended): when the AI service raises, `analyze_posts_batch` catches
the exception and returns an error-message STRING through the same
`Optional[str]` channel as a summary — it never raises past its boundary, but
the value is not a typed failure; `_perform_analysis` then treats it exactly
like a summary: it delivers it through the splitter and adds the batch size
to the items-found count. -/
theorem C4_error_string_treated_as_summary (msg : String) (fmtTime : Int → String)
    (posts : List Post) (s : String) (st : RunState) (h : posts ≠ []) :
    analyze_posts_batch (fun _ => AIResult.apiError msg) fmtTime posts =
      some (errorAnalysisMessage msg) ∧
    processSource
        { fetch := fun _ => FetchResult.ok posts,
          ai := fun _ _ => AIResult.apiError msg, fmtTime := fmtTime } st s =
      { total_new_posts := st.total_new_posts + posts.length,
        summary_lines := st.summary_lines ++ [summaryLineFor s posts],
        sent := (st.sent ++
          ["Found " ++ toString posts.length ++ " new post(s) in r/" ++ s ++
            ". Analyzing now..."]) ++ sendLongMessage (errorAnalysisMessage msg) } := by
  have hne : ¬ posts.isEmpty = true := by
    simp [List.isEmpty_iff, h]
  have h1 : analyze_posts_batch (fun _ => AIResult.apiError msg) fmtTime posts =
      some (errorAnalysisMessage msg) := by
    simp only [analyze_posts_batch, if_neg hne]
  refine ⟨h1, ?_⟩
  simp only [processSource, FetchResult.returned, if_neg hne, h1]

/-- Witness for C4 at one concrete post and message. -/
theorem C4_witness :
    analyze_posts_batch (fun _ => AIResult.apiError "boom") (fun _ => "")
        [samplePost] = some (errorAnalysisMessage "boom") ∧
    processSource
        { fetch := fun _ => FetchResult.ok [samplePost],
          ai := fun _ _ => AIResult.apiError "boom", fmtTime := fun _ => "" }
        { total_new_posts := 0, summary_lines := [], sent := [] } "a" =
      { total_new_posts := 0 + [samplePost].length,
        summary_lines := [] ++ [summaryLineFor "a" [samplePost]],
        sent := ([] ++
          ["Found " ++ toString [samplePost].length ++ " new post(s) in r/" ++ "a" ++
            ". Analyzing now..."]) ++ sendLongMessage (errorAnalysisMessage "boom") } :=
  C4_error_string_treated_as_summary "boom" (fun _ => "") [samplePost] "a"
    { total_new_posts := 0, summary_lines := [], sent := [] } (by decide)

/-- C4 (counterexample): with one source, one post and an APIError "boom",
the batch summarizer returns the error as a plain optional string, the run
counts the post as found, and the error text is handed to the delivery
channel as if it were the summary. -/
theorem C4_counterexample_error_delivered :
    analyze_posts_batch (fun _ => AIResult.apiError "boom") (fun _ => "")
        [samplePost] =
      some "Error: Could not analyze posts due to an AI API error: boom" ∧
    (perform_analysis envC4 ["a"]).total_new_posts = 1 ∧
    "Error: Could not analyze posts due to an AI API error: boom" ∈
      (perform_analysis envC4 ["a"]).sent := by decide

/-- One loop iteration of `fetch_posts` preserves the ledger invariant. -/
theorem fetchStep_inv (now : Int) (name : String) (P0 : Finset String)
    (sub : Submission) (st : FetchState) (h : FetchInv now P0 st) :
    FetchInv now P0 (fetchStep now name st sub) := by
  obtain ⟨h1, h2, h3⟩ := h
  by_cases hmem : sub.id ∈ st.processed
  · simpa [fetchStep, hmem] using ⟨h1, h2, h3⟩
  · by_cases hage : now - sub.created_utc > 86400
    · simpa [fetchStep, hmem, hage] using ⟨h1, h2, h3⟩
    · by_cases heng : sub.score > 5 ∨ (processComments sub.comments).length > 2
      · have hstep : fetchStep now name st sub =
            { posts := st.posts ++ [mkPost name sub (processComments sub.comments)],
              processed := insert sub.id st.processed,
              events := st.events ++ [LedgerEvent.accept sub.id] } := by
          simp [fetchStep, hmem, hage, heng]
        rw [hstep]
        refine ⟨?_, ?_, ?_⟩
        · intro p hp
          rcases List.mem_append.mp hp with hpold | hpnew
          · obtain ⟨a, b, c, d, e⟩ := h1 p hpold
            exact ⟨Finset.mem_insert_of_mem a, List.mem_append_left _ b, c, d, e⟩
          · have hpe : p = mkPost name sub (processComments sub.comments) :=
              List.mem_singleton.mp hpnew
            subst hpe
            refine ⟨?_, ?_, ?_, ?_, ?_⟩
            · simp [mkPost]
            · simp [mkPost]
            · simp only [mkPost]
              intro hin
              exact hmem (h2 hin)
            · simp only [mkPost]
              omega
            · simpa [mkPost] using heng
        · exact h2.trans (Finset.subset_insert _ _)
        · simp [List.filter_append, h3, LedgerEvent.isPersist]
      · simpa [fetchStep, hmem, hage, heng] using ⟨h1, h2, h3⟩

/-- The whole `fetch_posts` loop preserves the ledger invariant. -/
theorem foldl_fetchStep_inv (now : Int) (name : String) (P0 : Finset String) :
    ∀ (subs : List Submission) (st : FetchState), FetchInv now P0 st →
      FetchInv now P0 (subs.foldl (fetchStep now name) st) := by
  intro subs
  induction subs with
  | nil => intro st h; simpa using h
  | cons sub rest ih =>
    intro st h
    exact ih _ (fetchStep_inv now name P0 sub st h)

/-- The posts returned by `fetch_posts` are the posts accumulated by its
loop (the trailing save does not change them). -/
theorem fetch_posts_posts (now : Int) (P0 : Finset String) (name : String)
    (subs : List Submission) :
    (fetch_posts now P0 name subs).posts =
      (subs.foldl (fetchStep now name) ⟨[], P0, []⟩).posts := by
  simp only [fetch_posts]
  split <;> rfl

/-- The ledger returned by `fetch_posts` is the one accumulated by its
loop. -/
theorem fetch_posts_processed (now : Int) (P0 : Finset String) (name : String)
    (subs : List Submission) :
    (fetch_posts now P0 name subs).processed =
      (subs.foldl (fetchStep now name) ⟨[], P0, []⟩).processed := by
  simp only [fetch_posts]
  split <;> rfl

/-- Every post returned by `fetch_posts` satisfies the loop invariant:
its id is in the final in-memory ledger with a recorded accept, it was not in
the initial ledger, it is recent, and it passes the engagement filter. -/
theorem fetch_posts_inv (now : Int) (P0 : Finset String) (name : String)
    (subs : List Submission) :
    ∀ p ∈ (fetch_posts now P0 name subs).posts,
      p.id ∈ (fetch_posts now P0 name subs).processed ∧
      LedgerEvent.accept p.id ∈ (fetch_posts now P0 name subs).events ∧
      p.id ∉ P0 ∧ now - p.created_utc ≤ 86400 ∧
      (p.score > 5 ∨ p.comments.length > 2) := by
  have h0 : FetchInv now P0 ⟨[], P0, []⟩ :=
    ⟨by simp, Finset.Subset.refl _, by simp⟩
  have hf := foldl_fetchStep_inv now name P0 subs _ h0
  obtain ⟨h1, _, _⟩ := hf
  intro p hp
  rw [fetch_posts_posts] at hp
  obtain ⟨a, b, c, d, e⟩ := h1 p hp
  rw [fetch_posts_processed]
  refine ⟨a, ?_, c, d, e⟩
  · simp only [fetch_posts]
    split
    · exact b
    · exact List.mem_append_left _ b

/-- C5: `fetch_posts` never returns an item whose identifier was in the
ledger at the start of the call; and concretely, with ledger containing
exactly "abc" and the provider returning submissions "abc" and "def", only
"def" is returned and the ledger afterwards is exactly the two identifiers. -/
theorem C5_dedup_never_returns_ledger_ids :
    (∀ (now : Int) (P0 : Finset String) (name : String) (subs : List Submission),
      ∀ p ∈ (fetch_posts now P0 name subs).posts, p.id ∉ P0) ∧
    (fetch_posts 1000000 {"abc"} "test" [subAbc, subDef]).posts.map Post.id =
      ["def"] ∧
    (fetch_posts 1000000 {"abc"} "test" [subAbc, subDef]).processed =
      {"abc", "def"} := by
  refine ⟨?_, by decide, by decide⟩
  intro now P0 name subs p hp
  exact (fetch_posts_inv now P0 name subs p hp).2.2.1

/-- Witness for C5: the returned "def" post is not in the initial ledger. -/
theorem C5_witness : (mkPost "test" subDef []).id ∉ ({"abc"} : Finset String) :=
  C5_dedup_never_returns_ledger_ids.1 1000000 {"abc"} "test" [subAbc, subDef]
    (mkPost "test" subDef []) (by decide)

/-- C7: `fetch_posts` retains an item only if it is at most 24 hours old at
retrieval time and has score strictly above 5 or strictly more than 2
retained comments; every candidate failing either condition is absent from
the returned list. -/
theorem C7_fetch_filter_necessary (now : Int) (P0 : Finset String)
    (name : String) (subs : List Submission) :
    ∀ p ∈ (fetch_posts now P0 name subs).posts,
      now - p.created_utc ≤ 86400 ∧ (p.score > 5 ∨ p.comments.length > 2) :=
  fun p hp => (fetch_posts_inv now P0 name subs p hp).2.2.2

/-- Witness for C7 at the concrete dedup scenario. -/
theorem C7_witness :
    1000000 - (mkPost "test" subDef []).created_utc ≤ 86400 ∧
    ((mkPost "test" subDef []).score > 5 ∨
      (mkPost "test" subDef []).comments.length > 2) :=
  C7_fetch_filter_necessary 1000000 {"abc"} "test" [subAbc, subDef]
    (mkPost "test" subDef []) (by decide)

/-- When the loop accepted at least one post, `fetch_posts` appends exactly
one persist event carrying the final ledger; otherwise it appends nothing. -/
theorem fetch_posts_events (now : Int) (P0 : Finset String) (name : String)
    (subs : List Submission) :
    (fetch_posts now P0 name subs).events =
      (subs.foldl (fetchStep now name) ⟨[], P0, []⟩).events ++
        (if (subs.foldl (fetchStep now name) ⟨[], P0, []⟩).posts.isEmpty then []
         else [LedgerEvent.persist
           (subs.foldl (fetchStep now name) ⟨[], P0, []⟩).processed]) := by
  by_cases hE : (subs.foldl (fetchStep now name)
      (⟨[], P0, []⟩ : FetchState)).posts.isEmpty
  · simp [fetch_posts, hE]
  · simp [fetch_posts, hE]

/-- C6: every item retained by `fetch_posts` has its identifier in the
in-memory ledger when the call returns, with an accept event recorded inside
the call (hence before any summarization or delivery); the ledger is
persisted exactly once per call with at least one acceptance (zero times
otherwise), as the last action, carrying the final ledger; and a later fetch
starting from that ledger never returns any of those identifiers again. -/
theorem C6_ledger_accept_and_single_persist (now : Int) (P0 : Finset String)
    (name : String) (subs : List Submission) :
    (∀ p ∈ (fetch_posts now P0 name subs).posts,
      p.id ∈ (fetch_posts now P0 name subs).processed ∧
      LedgerEvent.accept p.id ∈ (fetch_posts now P0 name subs).events) ∧
    ((fetch_posts now P0 name subs).events.filter LedgerEvent.isPersist).length =
      (if (fetch_posts now P0 name subs).posts.isEmpty then 0 else 1) ∧
    ((fetch_posts now P0 name subs).posts.isEmpty = false →
      (fetch_posts now P0 name subs).events.getLast? =
        some (LedgerEvent.persist (fetch_posts now P0 name subs).processed)) ∧
    (∀ (now2 : Int) (name2 : String) (subs2 : List Submission),
      ∀ p ∈ (fetch_posts now P0 name subs).posts,
      ∀ q ∈ (fetch_posts now2 (fetch_posts now P0 name subs).processed name2
              subs2).posts,
        q.id ≠ p.id) := by
  have h0 : FetchInv now P0 ⟨[], P0, []⟩ :=
    ⟨by simp, Finset.Subset.refl _, by simp⟩
  have hf := foldl_fetchStep_inv now name P0 subs _ h0
  obtain ⟨-, -, hnopersist⟩ := hf
  refine ⟨?_, ?_, ?_, ?_⟩
  · intro p hp
    have := fetch_posts_inv now P0 name subs p hp
    exact ⟨this.1, this.2.1⟩
  · rw [fetch_posts_events, fetch_posts_posts, List.filter_append, hnopersist]
    by_cases hE : (subs.foldl (fetchStep now name)
        (⟨[], P0, []⟩ : FetchState)).posts.isEmpty
    · simp [hE]
    · simp [hE, LedgerEvent.isPersist]
  · intro hne
    rw [fetch_posts_posts] at hne
    rw [fetch_posts_events, fetch_posts_processed, hne]
    simp [List.getLast?_concat]
  · intro now2 name2 subs2 p hp q hq
    have hqP : q.id ∉ (fetch_posts now P0 name subs).processed :=
      (fetch_posts_inv now2 _ name2 subs2 q hq).2.2.1
    have hpP : p.id ∈ (fetch_posts now P0 name subs).processed :=
      (fetch_posts_inv now P0 name subs p hp).1
    intro heq
    rw [heq] at hqP
    exact hqP hpP

/-- Witness for C6 at the concrete dedup scenario, including a later fetch
with a fresh submission "ghi" against the updated ledger. -/
theorem C6_witness :
    ((mkPost "test" subDef []).id ∈
        (fetch_posts 1000000 {"abc"} "test" [subAbc, subDef]).processed ∧
      LedgerEvent.accept (mkPost "test" subDef []).id ∈
        (fetch_posts 1000000 {"abc"} "test" [subAbc, subDef]).events) ∧
    (fetch_posts 1000000 {"abc"} "test" [subAbc, subDef]).events.getLast? =
      some (LedgerEvent.persist
        (fetch_posts 1000000 {"abc"} "test" [subAbc, subDef]).processed) ∧
    (mkPost "t2" subGhi []).id ≠ (mkPost "test" subDef []).id :=
  ⟨(C6_ledger_accept_and_single_persist 1000000 {"abc"} "test"
      [subAbc, subDef]).1 (mkPost "test" subDef []) (by decide),
   (C6_ledger_accept_and_single_persist 1000000 {"abc"} "test"
      [subAbc, subDef]).2.2.1 (by decide),
   (C6_ledger_accept_and_single_persist 1000000 {"abc"} "test"
      [subAbc, subDef]).2.2.2 1000000 "t2" [subGhi]
      (mkPost "test" subDef []) (by decide) (mkPost "t2" subGhi []) (by decide)⟩

/-- The descending-score comparison is transitive. -/
theorem scoreGE_trans : ∀ (a b c : Comment), scoreGE a b → scoreGE b c → scoreGE a c := by
  intro a b c h1 h2
  simp only [scoreGE, decide_eq_true_eq] at h1 h2 ⊢
  omega

/-- The descending-score comparison is total. -/
theorem scoreGE_total : ∀ (a b : Comment), scoreGE a b || scoreGE b a := by
  intro a b
  simp only [scoreGE, Bool.or_eq_true, decide_eq_true_eq]
  omega

/-- Stability of the comment sort: within one score class, the sorted list
keeps exactly the provider order (the filters agree as lists). -/
theorem sortedComments_filter_score (cs : List Comment) (sc : Int) :
    (sortedComments cs).filter (fun c => decide (c.score = sc)) =
      cs.filter (fun c => decide (c.score = sc)) := by
  have hperm : List.Perm
      ((sortedComments cs).filter (fun c => decide (c.score = sc)))
      (cs.filter (fun c => decide (c.score = sc))) :=
    (List.mergeSort_perm cs scoreGE).filter _
  have hpair : (cs.filter (fun c => decide (c.score = sc))).Pairwise
      (fun a b => scoreGE a b) := by
    apply List.pairwise_of_forall_mem_list
    intro a ha b hb
    have ha2 := (List.mem_filter.mp ha).2
    have hb2 := (List.mem_filter.mp hb).2
    simp only [decide_eq_true_eq] at ha2 hb2
    simp [scoreGE, ha2, hb2]
  have hsub : List.Sublist (cs.filter (fun c => decide (c.score = sc)))
      (sortedComments cs) :=
    List.sublist_mergeSort scoreGE_trans scoreGE_total hpair (List.filter_sublist _)
  have hsub2 : List.Sublist (cs.filter (fun c => decide (c.score = sc)))
      ((sortedComments cs).filter (fun c => decide (c.score = sc))) := by
    have hff := hsub.filter (fun c => decide (c.score = sc))
    have heq : (cs.filter (fun c => decide (c.score = sc))).filter
        (fun c => decide (c.score = sc)) =
        cs.filter (fun c => decide (c.score = sc)) :=
      List.filter_eq_self.mpr (fun a ha => (List.mem_filter.mp ha).2)
    rwa [heq] at hff
  exact (hsub2.eq_of_length hperm.length_eq.symm).symm

/-- The sorted comment list is pairwise non-increasing in score. -/
theorem sortedComments_pairwise (cs : List Comment) :
    (sortedComments cs).Pairwise (fun a b => b.score ≤ a.score) := by
  have h := List.sorted_mergeSort scoreGE_trans scoreGE_total cs
  exact h.imp (by intro a b hab; simpa [scoreGE, decide_eq_true_eq] using hab)

/-- A list that is pairwise non-increasing in score and agrees with a second
such list per score class (as ordered sublists) and as a multiset is equal to
it: the stable descending sort of a comment list is unique. -/
theorem stable_desc_sort_unique :
    ∀ (l₁ l₂ : List Comment),
      List.Perm l₁ l₂ →
      l₁.Pairwise (fun a b => b.score ≤ a.score) →
      l₂.Pairwise (fun a b => b.score ≤ a.score) →
      (∀ sc : Int, l₁.filter (fun c => decide (c.score = sc)) =
        l₂.filter (fun c => decide (c.score = sc))) →
      l₁ = l₂ := by
  intro l₁
  induction l₁ with
  | nil =>
    intro l₂ hp _ _ _
    exact (hp.symm.eq_nil).symm
  | cons a t₁ ih =>
    intro l₂ hp hp₁ hp₂ hfil
    cases l₂ with
    | nil => exact absurd hp.eq_nil (by simp)
    | cons b t₂ =>
      have hmax₁ : ∀ x ∈ t₁, x.score ≤ a.score := fun x hx =>
        List.rel_of_pairwise_cons hp₁ hx
      have hmax₂ : ∀ x ∈ t₂, x.score ≤ b.score := fun x hx =>
        List.rel_of_pairwise_cons hp₂ hx
      have hab : a.score = b.score := by
        have ha2 : a ∈ b :: t₂ := hp.mem_iff.mp (List.mem_cons_self a t₁)
        have hb1 : b ∈ a :: t₁ := hp.mem_iff.mpr (List.mem_cons_self b t₂)
        rcases List.mem_cons.mp ha2 with h | h
        · rw [h]
        · rcases List.mem_cons.mp hb1 with h2 | h2
          · rw [h2]
          · have hA := hmax₂ a h
            have hB := hmax₁ b h2
            omega
      have hfa := hfil a.score
      have hda : (fun c : Comment => decide (c.score = a.score)) a = true := by
        simp
      have hdb : (fun c : Comment => decide (c.score = a.score)) b = true := by
        simp [hab]
      rw [List.filter_cons, List.filter_cons, if_pos hda, if_pos hdb,
        List.cons.injEq] at hfa
      obtain ⟨hab2, htfa⟩ := hfa
      subst hab2
      have hp' : List.Perm t₁ t₂ := hp.cons_inv
      have hfil' : ∀ sc : Int, t₁.filter (fun c => decide (c.score = sc)) =
          t₂.filter (fun c => decide (c.score = sc)) := by
        intro sc
        by_cases hsc : a.score = sc
        · rw [← hsc]
          exact htfa
        · have h := hfil sc
          have hda' : ¬ (fun c : Comment => decide (c.score = sc)) a = true := by
            simp [hsc]
          rwa [List.filter_cons, List.filter_cons, if_neg hda', if_neg hda'] at h
      rw [ih t₂ hp' (hp₁.of_cons) (hp₂.of_cons) hfil']

/-- C8: the comments entering the prompt for each post are exactly the first
min(8, n) comments of the stable descending-score sort of the item comments:
the selection equals take 8 of a list that is a permutation of the comments,
pairwise non-increasing in score, and identical to the provider order within
every score class — and (third conjunct) those three properties determine
that list uniquely, so the selection is exactly the top 8 with ties in
provider order; moreover an empty batch makes the summarizer return
immediately with no result. -/
theorem C8_prompt_comments_sorted_capped :
    (∀ (ai : String → AIResult) (fmtTime : Int → String),
        analyze_posts_batch ai fmtTime [] = none) ∧
    (∀ cs : List Comment,
      ∃ sorted : List Comment,
        List.Perm sorted cs ∧
        sorted.Pairwise (fun a b => b.score ≤ a.score) ∧
        (∀ sc : Int, sorted.filter (fun c => decide (c.score = sc)) =
          cs.filter (fun c => decide (c.score = sc))) ∧
        selectedComments cs = sorted.take 8) ∧
    (∀ (cs l₁ l₂ : List Comment),
      List.Perm l₁ cs → List.Perm l₂ cs →
      l₁.Pairwise (fun a b => b.score ≤ a.score) →
      l₂.Pairwise (fun a b => b.score ≤ a.score) →
      (∀ sc : Int, l₁.filter (fun c => decide (c.score = sc)) =
        cs.filter (fun c => decide (c.score = sc))) →
      (∀ sc : Int, l₂.filter (fun c => decide (c.score = sc)) =
        cs.filter (fun c => decide (c.score = sc))) →
      l₁ = l₂) := by
  refine ⟨fun ai fmtTime => rfl, ?_, ?_⟩
  · intro cs
    exact ⟨sortedComments cs, List.mergeSort_perm cs scoreGE,
      sortedComments_pairwise cs, sortedComments_filter_score cs, rfl⟩
  · intro cs l₁ l₂ hp₁ hp₂ hs₁ hs₂ hf₁ hf₂
    exact stable_desc_sort_unique l₁ l₂ (hp₁.trans hp₂.symm) hs₁ hs₂
      (fun sc => (hf₁ sc).trans (hf₂ sc).symm)

/-- Witness for C8 at a concrete comment list with a tie at score 5. -/
theorem C8_witness :
    analyze_posts_batch (fun _ => AIResult.otherError) (fun _ => "") [] = none ∧
    (∃ sorted : List Comment,
      List.Perm sorted [⟨"u", "aa", 1⟩, ⟨"v", "bb", 5⟩, ⟨"w", "cc", 5⟩] ∧
      sorted.Pairwise (fun a b => b.score ≤ a.score) ∧
      (∀ sc : Int, sorted.filter (fun c => decide (c.score = sc)) =
        ([⟨"u", "aa", 1⟩, ⟨"v", "bb", 5⟩, ⟨"w", "cc", 5⟩] : List Comment).filter
          (fun c => decide (c.score = sc))) ∧
      selectedComments [⟨"u", "aa", 1⟩, ⟨"v", "bb", 5⟩, ⟨"w", "cc", 5⟩] =
        sorted.take 8) ∧
    ([⟨"v", "bb", 5⟩, ⟨"w", "cc", 5⟩, ⟨"u", "aa", 1⟩] : List Comment) =
      [⟨"v", "bb", 5⟩, ⟨"w", "cc", 5⟩, ⟨"u", "aa", 1⟩] :=
  ⟨C8_prompt_comments_sorted_capped.1 (fun _ => AIResult.otherError) (fun _ => ""),
   C8_prompt_comments_sorted_capped.2.1
     [⟨"u", "aa", 1⟩, ⟨"v", "bb", 5⟩, ⟨"w", "cc", 5⟩],
   C8_prompt_comments_sorted_capped.2.2
     [⟨"u", "aa", 1⟩, ⟨"v", "bb", 5⟩, ⟨"w", "cc", 5⟩]
     [⟨"v", "bb", 5⟩, ⟨"w", "cc", 5⟩, ⟨"u", "aa", 1⟩]
     [⟨"v", "bb", 5⟩, ⟨"w", "cc", 5⟩, ⟨"u", "aa", 1⟩]
     (by decide) (by decide) (by decide) (by decide)
     (by
       intro sc
       by_cases h5 : (5 : Int) = sc <;> by_cases h1 : (1 : Int) = sc <;>
         simp [List.filter, h5, h1] <;> omega)
     (by
       intro sc
       by_cases h5 : (5 : Int) = sc <;> by_cases h1 : (1 : Int) = sc <;>
         simp [List.filter, h5, h1] <;> omega)⟩

/-- C9 (counterexample): replacing the subreddit list with ["b", "b"] stores
a list with a duplicate name — `set_subreddits` performs no deduplication —
and persists it. -/
theorem C9_counterexample_replace_keeps_duplicates :
    (set_subreddits ["a"] ["b", "b"]).2 = true ∧
    ¬ (set_subreddits ["a"] ["b", "b"]).1.Nodup := by
  refine ⟨rfl, ?_⟩
  intro h
  simp [set_subreddits] at h

/-- C9 (amended): starting from a duplicate-free list, `add_subreddit` and
`remove_subreddit` keep it duplicate-free and persist exactly when they
change the list; `set_subreddits` always persists but stores the given list
verbatim, so it is duplicate-free only when its input is. -/
theorem C9_mutations_nodup_and_persist (subreddits : List String) (s : String)
    (h : subreddits.Nodup) :
    (add_subreddit subreddits s).1.Nodup ∧
    ((add_subreddit subreddits s).2 = true ↔ s ∉ subreddits) ∧
    (remove_subreddit subreddits s).1.Nodup ∧
    ((remove_subreddit subreddits s).2 = true ↔ s ∈ subreddits) ∧
    ∀ new : List String,
      (set_subreddits subreddits new).1 = new ∧
      (set_subreddits subreddits new).2 = true ∧
      (new.Nodup → (set_subreddits subreddits new).1.Nodup) := by
  by_cases hmem : s ∈ subreddits
  · refine ⟨?_, ?_, ?_, ?_, ?_⟩
    · simpa [add_subreddit, hmem] using h
    · simp [add_subreddit, hmem]
    · simpa [remove_subreddit, hmem] using h.erase s
    · simp [remove_subreddit, hmem]
    · intro new
      exact ⟨rfl, rfl, fun hn => hn⟩
  · refine ⟨?_, ?_, ?_, ?_, ?_⟩
    · simp only [add_subreddit, if_neg hmem]
      simp [List.nodup_append, h, hmem]
    · simp [add_subreddit, hmem]
    · simpa [remove_subreddit, hmem] using h
    · simp [remove_subreddit, hmem]
    · intro new
      exact ⟨rfl, rfl, fun hn => hn⟩

/-- Witness for C9 at the concrete list ["a"] and name "b". -/
theorem C9_witness :
    (add_subreddit ["a"] "b").1.Nodup ∧
    ((add_subreddit ["a"] "b").2 = true ↔ "b" ∉ (["a"] : List String)) ∧
    (remove_subreddit ["a"] "b").1.Nodup ∧
    ((remove_subreddit ["a"] "b").2 = true ↔ "b" ∈ (["a"] : List String)) ∧
    ∀ new : List String,
      (set_subreddits ["a"] new).1 = new ∧
      (set_subreddits ["a"] new).2 = true ∧
      (new.Nodup → (set_subreddits ["a"] new).1.Nodup) :=
  C9_mutations_nodup_and_persist ["a"] "b" (by decide)
